import Mathlib

/-!
Shallow embedding of `src/app.py` (VAYUVEG Newsletter Builder, a small Flask
application). Forms are multimaps from field name to submitted value lists;
the article-normalization pipeline (`_getlist_fallback`, `parse_articles`),
the theme resolver (`resolve_theme`) and the three POST endpoints
(`export`, `preview`, `generate`) are translated directly. The template
store (`render_template` with the theme HTML files) and the third-party
markdown converter are external to `src/`; they are modelled abstractly
resp. from the spec, as noted on their definitions.
-/

/-- The whitespace characters Python's `str.strip()` removes (the ASCII ones,
which are the only ones the embedding needs). -/
def isPyWs (c : Char) : Bool :=
  c = ' ' || c = '\t' || c = '\n' || c = '\r' || c = '\x0b' || c = '\x0c'

/-- `str.strip()` on a character list: drop whitespace from both ends. -/
def stripChars (l : List Char) : List Char :=
  ((l.dropWhile isPyWs).reverse.dropWhile isPyWs).reverse

/-- Python's `str.strip()`. -/
def pyStrip (s : String) : String := String.mk (stripChars s.toList)

/-- `markupsafe.escape` on one character: `&`, `<`, `>`, `"` and the single
quote become HTML character references, all other characters are kept. -/
def escChar (c : Char) : List Char :=
  if c = '&' then "&amp;".toList
  else if c = '<' then "&lt;".toList
  else if c = '>' then "&gt;".toList
  else if c = '"' then "&#34;".toList
  else if c = Char.ofNat 39 then "&#39;".toList
  else [c]

/-- `markupsafe.escape` on a character list. -/
def escapeList (l : List Char) : List Char := (l.map escChar).flatten

/-- `markupsafe.escape` as used in `parse_articles`. -/
def escape (s : String) : String := String.mk (escapeList s.toList)

/-- Modelled from the spec: inline pass of the external markdown library
(a third-party dependency, not part of `src/`), converting the lightweight
markup dialect to HTML; `**text**` becomes strong emphasis, everything else
is copied through. -/
def mdInline : List Char → Bool → List Char
  | [], _ => []
  | '*' :: '*' :: rest, b =>
      (if b then "</strong>".toList else "<strong>".toList) ++ mdInline rest (!b)
  | c :: rest, b => c :: mdInline rest b

/-- Modelled from the spec: `markdown.markdown` (third-party library, not part
of `src/`) on one summary, wrapping non-empty input in a paragraph and
converting strong emphasis; empty input yields the empty fragment. -/
def markdown (s : String) : String :=
  if s = "" then "" else "<p>" ++ String.mk (mdInline s.toList false) ++ "</p>"

/-- A submitted form: the multimap from field name to the list of submitted
values (werkzeug MultiDict, restricted to what the code uses). -/
def Form : Type := String → List String

/-- `form.getlist(name)`: all values submitted under the name. -/
def Form.getlist (form : Form) (name : String) : List String := form name

/-- `form.get(name)`: the first value under the name, or None. -/
def Form.get (form : Form) (name : String) : Option String := (form name).head?

/-- The theme allow-list of the source: classic, magazine, saffron. -/
def AVAILABLE_THEMES : List String := ["classic", "magazine", "saffron"]

/-- `DEFAULT_THEME = "classic"`. -/
def DEFAULT_THEME : String := "classic"

/-- `resolve_theme`: ensure only allowed themes are rendered. -/
def resolve_theme (value : Option String) : String :=
  match value with
  | some v => if AVAILABLE_THEMES.contains v then v else DEFAULT_THEME
  | none => DEFAULT_THEME

/-- The loop of `_getlist_fallback`: the first candidate name whose value list
is non-empty and has a value that is non-blank after stripping. -/
def gfLoop (form : Form) : List String → Option (List String)
  | [] => none
  | name :: rest =>
      let values := form.getlist name
      if !values.isEmpty && values.any (fun v => !(pyStrip v).isEmpty) then
        some values
      else gfLoop form rest

/-- `_getlist_fallback(form, *names)`: first non-empty getlist among the
candidate field names, else the preferred name's list (empty for no names). -/
def getlistFallback (form : Form) (names : List String) : List String :=
  match gfLoop form names with
  | some values => values
  | none =>
      match names with
      | [] => []
      | first :: _ => form.getlist first

/-- One positional row of form values: (title, summary, image, url). -/
abbrev Row : Type := String × String × String × String

/-- The maximum of the four field-list lengths. -/
def max4 (a b c d : Nat) : Nat := max (max a b) (max c d)

/-- `itertools.zip_longest(titles, summaries, images, links, fillvalue="")`:
positions run to the longest list, missing positions read as `""`. -/
def zipLongest4 (ts ss ims us : List String) : List Row :=
  (List.range (max4 ts.length ss.length ims.length us.length)).map
    (fun i => (ts.getD i "", ss.getD i "", ims.getD i "", us.getD i ""))

/-- A normalized article as built by `parse_articles`. -/
structure Article where
  title : String
  summary : String
  image : String
  url : String
deriving DecidableEq

/-- The article built from one kept row: title/image/url stripped and escaped,
summary stripped and run through the markdown converter. -/
def mkRowArticle (r : Row) : Article :=
  ⟨escape (pyStrip r.1), markdown (pyStrip r.2.1),
    escape (pyStrip r.2.2.1), escape (pyStrip r.2.2.2)⟩

/-- The loop body of `parse_articles`: a row whose stripped title is empty is
skipped (`continue`), every other row appends its article. -/
def buildRows : List Row → List Article
  | [] => []
  | r :: rest =>
      if pyStrip r.1 = "" then buildRows rest
      else mkRowArticle r :: buildRows rest

/-- The zipped rows of a form, from the four fallback-resolved field lists
(`title`; `summary`/`desc`; `image`/`img`; `url`/`link`). -/
def zipRows (form : Form) : List Row :=
  zipLongest4 (getlistFallback form ["title"])
    (getlistFallback form ["summary", "desc"])
    (getlistFallback form ["image", "img"])
    (getlistFallback form ["url", "link"])

/-- `parse_articles(form)`. -/
def parse_articles (form : Form) : List Article := buildRows (zipRows form)

/-- An HTTP response as the endpoints shape it. -/
structure HttpResponse where
  status : Nat
  body : String
  headers : List (String × String)
deriving DecidableEq

/-- The template store consulted by `render_template`: the theme HTML files
are packaging assets outside `src/`, so rendering is abstract — any function
from template path and article list to a document. -/
def RenderTemplate : Type := String → List Article → String

/-- `render_newsletter(theme, articles)`: renders the template at
`themes/<theme>/newsletter.html` with the article list. -/
def render_newsletter (rt : RenderTemplate) (theme : String)
    (articles : List Article) : String :=
  rt ("themes/" ++ theme ++ "/newsletter.html") articles

/-- The Content-Type header every HTML response carries. -/
def contentTypeHeader : String × String :=
  ("Content-Type", "text/html; charset=utf-8")

/-- The Content-Disposition header `export` sets. -/
def exportDisposition : String × String :=
  ("Content-Disposition", "attachment; filename=\"vayuveg-newsletter.html\"")

/-- `POST /export` (the source's `export` view; `export` is a Lean keyword,
hence the name): 400 "No articles to export" on an empty article list, else
the rendered newsletter with attachment disposition. -/
def exportRoute (rt : RenderTemplate) (form : Form) : HttpResponse :=
  let theme := resolve_theme (form.get "theme")
  let articles := parse_articles form
  if articles.isEmpty then ⟨400, "No articles to export", []⟩
  else
    ⟨200, render_newsletter rt theme articles,
      [contentTypeHeader, exportDisposition]⟩

/-- `POST /preview`: always renders, even with an empty article list. -/
def preview (rt : RenderTemplate) (form : Form) : HttpResponse :=
  ⟨200,
    render_newsletter rt (resolve_theme (form.get "theme")) (parse_articles form),
    [contentTypeHeader]⟩

/-- `POST /generate`: 400 "No articles provided" on an empty article list,
else the rendered newsletter inline. -/
def generate (rt : RenderTemplate) (form : Form) : HttpResponse :=
  let theme := resolve_theme (form.get "theme")
  let articles := parse_articles form
  if articles.isEmpty then ⟨400, "No articles provided", []⟩
  else ⟨200, render_newsletter rt theme articles, [contentTypeHeader]⟩

/-- A form with no submitted values at all. -/
def emptyForm : Form := fun _ => []

/-- A concrete renderer for closed statements. -/
def rt0 : RenderTemplate := fun _ _ => "<html></html>"

/-- The spec's filtering example: titles `["A", "", " "]`,
summaries `["x", "y", "z"]`. -/
def c1Form : Form := fun name =>
  if name = "title" then ["A", "", " "]
  else if name = "summary" then ["x", "y", "z"]
  else []

/-- The spec's markdown example: `title=["Hello"], summary=["**world**"],
image=[""], url=[""]`. -/
def c8Form : Form := fun name =>
  if name = "title" then ["Hello"]
  else if name = "summary" then ["**world**"]
  else if name = "image" then [""]
  else if name = "url" then [""]
  else []

/-- A form whose only title is `<script>`. -/
def scriptForm : Form := fun name =>
  if name = "title" then ["<script>"] else []

/-! ## Helper lemmas -/

/-- `String.mk` builds the empty string exactly from the empty list. -/
theorem string_mk_eq_empty {l : List Char} : String.mk l = "" ↔ l = [] := by
  constructor
  · intro h
    exact congrArg String.data h
  · rintro rfl
    rfl

/-- Stripping yields the empty list exactly when every character is
whitespace. -/
theorem stripChars_eq_nil {l : List Char} :
    stripChars l = [] ↔ ∀ c ∈ l, isPyWs c = true := by
  unfold stripChars
  rw [List.reverse_eq_nil_iff, List.dropWhile_eq_nil_iff]
  constructor
  · intro h c hc
    have hsplit := List.takeWhile_append_dropWhile (p := isPyWs) (l := l)
    rw [← hsplit] at hc
    rcases List.mem_append.mp hc with h1 | h2
    · exact List.mem_takeWhile_imp h1
    · exact h c (List.mem_reverse.mpr h2)
  · intro h c hc
    exact h c ((List.dropWhile_sublist _).subset (List.mem_reverse.mp hc))

/-- A list has a non-whitespace character exactly when stripping leaves it
non-empty. -/
theorem exists_nonWs_iff (l : List Char) :
    (∃ c ∈ l, isPyWs c = false) ↔ stripChars l ≠ [] := by
  rw [Ne, stripChars_eq_nil]
  constructor
  · rintro ⟨c, hc, hws⟩ hall
    rw [hall c hc] at hws
    exact Bool.noConfusion hws
  · intro h
    by_contra hno
    push_neg at hno
    refine h (fun c hc => ?_)
    have := hno c hc
    simpa using this

/-- A non-whitespace member of a list survives `dropWhile isPyWs`. -/
theorem mem_dropWhile_of_nonWs {c : Char} {l : List Char} (hc : c ∈ l)
    (h : isPyWs c = false) : c ∈ l.dropWhile isPyWs := by
  induction l with
  | nil => cases hc
  | cons a l ih =>
      by_cases ha : isPyWs a
      · rw [List.dropWhile_cons_of_pos ha]
        rcases List.mem_cons.mp hc with rfl | hm
        · rw [ha] at h
          exact Bool.noConfusion h
        · exact ih hm
      · rw [List.dropWhile_cons_of_neg ha]
        exact hc

/-- A non-whitespace member of a list survives stripping. -/
theorem mem_stripChars {c : Char} {l : List Char} (hc : c ∈ l)
    (h : isPyWs c = false) : c ∈ stripChars l := by
  unfold stripChars
  rw [List.mem_reverse]
  exact mem_dropWhile_of_nonWs
    (List.mem_reverse.mpr (mem_dropWhile_of_nonWs hc h)) h

/-- Escaping a non-whitespace character yields some non-whitespace
character. -/
theorem escChar_exists_nonWs (c : Char) (h : isPyWs c = false) :
    ∃ d ∈ escChar c, isPyWs d = false := by
  unfold escChar
  repeat' split
  all_goals first
    | exact ⟨'&', by decide, by decide⟩
    | exact ⟨c, List.mem_singleton.mpr rfl, h⟩

/-- A list with a non-whitespace character escapes to a list with a
non-whitespace character. -/
theorem exists_nonWs_escapeList {l : List Char}
    (h : ∃ c ∈ l, isPyWs c = false) :
    ∃ d ∈ escapeList l, isPyWs d = false := by
  rcases h with ⟨c, hc, hws⟩
  rcases escChar_exists_nonWs c hws with ⟨d, hd, hdws⟩
  refine ⟨d, ?_, hdws⟩
  unfold escapeList
  exact List.mem_flatten.mpr ⟨escChar c, List.mem_map_of_mem _ hc, hd⟩

/-- A string strips to non-empty exactly when it has a non-whitespace
character. -/
theorem pyStrip_ne_empty_iff (s : String) :
    pyStrip s ≠ "" ↔ ∃ c ∈ s.toList, isPyWs c = false := by
  unfold pyStrip
  rw [Ne, string_mk_eq_empty]
  exact (exists_nonWs_iff _).symm

/-- Every article `buildRows` keeps comes from a row of its input whose
stripped title is non-empty, in the shape `mkRowArticle` gives it. -/
theorem mem_buildRows {a : Article} {rows : List Row}
    (h : a ∈ buildRows rows) :
    ∃ r ∈ rows, pyStrip r.1 ≠ "" ∧ a = mkRowArticle r := by
  induction rows with
  | nil => cases h
  | cons r rest ih =>
      by_cases hr : pyStrip r.1 = ""
      · simp only [buildRows, if_pos hr] at h
        rcases ih h with ⟨r2, h1, h2, h3⟩
        exact ⟨r2, List.mem_cons_of_mem _ h1, h2, h3⟩
      · simp only [buildRows, if_neg hr] at h
        rcases List.mem_cons.mp h with rfl | hm
        · exact ⟨r, List.mem_cons_self r rest, hr, rfl⟩
        · rcases ih hm with ⟨r2, h1, h2, h3⟩
          exact ⟨r2, List.mem_cons_of_mem _ h1, h2, h3⟩

/-- The `parse_articles` loop is filtering for non-blank stripped titles
followed by per-row article construction. -/
theorem buildRows_eq (rows : List Row) :
    buildRows rows =
      (rows.filter (fun r => pyStrip r.1 ≠ "")).map mkRowArticle := by
  induction rows with
  | nil => rfl
  | cons r rest ih =>
      by_cases h : pyStrip r.1 = ""
      · simp [buildRows, h, ih]
      · simp [buildRows, h, ih]

/-- The emptiness guard in the source's condition is redundant: a list with a
non-blank value is non-empty. -/
theorem guard_any_eq (l : List String) (p : String → Bool) :
    (!l.isEmpty && l.any p) = l.any p := by
  cases l <;> simp

/-- The fallback loop returns the value list of the first candidate name with
a non-blank value. -/
theorem gfLoop_eq (form : Form) (names : List String) :
    gfLoop form names =
      (names.find?
          (fun n => (form.getlist n).any (fun v => !(pyStrip v).isEmpty))).map
        (fun n => form.getlist n) := by
  induction names with
  | nil => rfl
  | cons n rest ih =>
      simp only [gfLoop, guard_any_eq, List.find?]
      by_cases h : (form.getlist n).any (fun v => !(pyStrip v).isEmpty)
      · simp [h]
      · simp [h, ih]

/-! ## Claim theorems -/

/-- C1: every Article in the list returned by `parse_articles` has a
non-empty title after trimming; a row whose trimmed title is empty never
contributes an article, so no output article has a blank trimmed title. -/
theorem parse_articles_title_nonblank (form : Form) (a : Article)
    (h : a ∈ parse_articles form) : pyStrip a.title ≠ "" := by
  rcases mem_buildRows h with ⟨r, _, hr, rfl⟩
  show pyStrip (escape (pyStrip r.1)) ≠ ""
  rw [pyStrip_ne_empty_iff]
  rcases (pyStrip_ne_empty_iff r.1).mp hr with ⟨c, hc, hcw⟩
  exact exists_nonWs_escapeList ⟨c, mem_stripChars hc hcw, hcw⟩

/-- Witness for C1 at the spec's filtering example form. -/
theorem parse_articles_title_nonblank_wit :
    pyStrip (Article.mk "A" "<p>x</p>" "" "").title ≠ "" :=
  parse_articles_title_nonblank c1Form (Article.mk "A" "<p>x</p>" "" "")
    (by decide)

/-- C10 (implicit): the field extractor is total — the empty candidate list
yields the empty value list, and every call returns a defined list. -/
theorem getlist_fallback_total (form : Form) :
    getlistFallback form [] = [] ∧
    ∀ names : List String, ∃ values : List String,
      getlistFallback form names = values :=
  ⟨rfl, fun names => ⟨getlistFallback form names, rfl⟩⟩

/-- C9: `preview` always answers 200 (never 400) with the rendered document,
whatever the form holds. -/
theorem preview_always_200 (rt : RenderTemplate) (form : Form) :
    (preview rt form).status = 200 ∧
    (preview rt form).status ≠ 400 ∧
    (preview rt form).body =
      render_newsletter rt (resolve_theme (form.get "theme"))
        (parse_articles form) :=
  ⟨rfl, by simp [preview], rfl⟩

/-- C6: for a non-empty candidate list the field extractor returns the value
list of the first candidate with a non-blank value, and the preferred (first)
name's list when no candidate has one. -/
theorem getlist_fallback_first_nonblank (form : Form) (first : String)
    (rest : List String) :
    getlistFallback form (first :: rest) =
      match (first :: rest).find?
          (fun n => (form.getlist n).any (fun v => !(pyStrip v).isEmpty)) with
      | some n => form.getlist n
      | none => form.getlist first := by
  unfold getlistFallback
  rw [gfLoop_eq]
  rcases hfind : (first :: rest).find?
      (fun n => (form.getlist n).any (fun v => !(pyStrip v).isEmpty)) with _ | n
  · simp
  · simp

/-- C3 counterexample: the claim's allow-list names `shodhsetu`, but the
source's `AVAILABLE_THEMES` does not contain it, so `resolve_theme` maps it
to the default instead of returning it. -/
theorem resolve_theme_shodhsetu_cex :
    resolve_theme (some "shodhsetu") = "classic" ∧
    resolve_theme (some "shodhsetu") ≠ "shodhsetu" := by decide

/-- C3 (amended): `resolve_theme` is total, returns members of the allow-list
`classic`, `magazine`, `saffron` unchanged, and returns the default theme
`classic` for every other input, including absent input; its result is always
in the allow-list. -/
theorem resolve_theme_total_allowlist (value : Option String) :
    resolve_theme value ∈ AVAILABLE_THEMES ∧
    DEFAULT_THEME = "classic" ∧
    (∀ v, v ∈ AVAILABLE_THEMES → resolve_theme (some v) = v) ∧
    (∀ v, v ∉ AVAILABLE_THEMES → resolve_theme (some v) = DEFAULT_THEME) ∧
    resolve_theme none = DEFAULT_THEME := by
  have hmem : ∀ v : String, AVAILABLE_THEMES.contains v = true ↔
      v ∈ AVAILABLE_THEMES := fun v => List.elem_iff
  refine ⟨?_, rfl, ?_, ?_, rfl⟩
  · rcases value with _ | v
    · decide
    · show (if AVAILABLE_THEMES.contains v then v else DEFAULT_THEME) ∈
        AVAILABLE_THEMES
      by_cases h : AVAILABLE_THEMES.contains v
      · rw [if_pos h]
        exact (hmem v).mp h
      · rw [if_neg h]
        decide
  · intro v hv
    show (if AVAILABLE_THEMES.contains v then v else DEFAULT_THEME) = v
    rw [if_pos ((hmem v).mpr hv)]
  · intro v hv
    show (if AVAILABLE_THEMES.contains v then v else DEFAULT_THEME) =
      DEFAULT_THEME
    rw [if_neg (fun hc => hv ((hmem v).mp hc))]

/-- C2: `export` and `generate` answer 400 exactly when the normalized
article list is empty, with their respective messages, and otherwise answer
200 with the rendered newsletter. -/
theorem export_generate_validation (rt : RenderTemplate) (form : Form) :
    ((exportRoute rt form).status = 400 ↔ parse_articles form = []) ∧
    ((generate rt form).status = 400 ↔ parse_articles form = []) ∧
    (parse_articles form = [] →
      (exportRoute rt form).body = "No articles to export" ∧
      (generate rt form).body = "No articles provided") ∧
    (parse_articles form ≠ [] →
      (exportRoute rt form).status = 200 ∧
      (exportRoute rt form).body =
        render_newsletter rt (resolve_theme (form.get "theme"))
          (parse_articles form) ∧
      (generate rt form).status = 200 ∧
      (generate rt form).body =
        render_newsletter rt (resolve_theme (form.get "theme"))
          (parse_articles form)) := by
  by_cases h : parse_articles form = []
  · simp [exportRoute, generate, h]
  · simp [exportRoute, generate, h, List.isEmpty_iff]

/-- C4 counterexample: at a form with one kept article the export response's
Content-Disposition filename is `vayuveg-newsletter.html`; the header value
the claim states, with `weekly` in the filename, is not among the headers. -/
theorem export_filename_not_weekly_cex :
    (exportRoute rt0 c1Form).headers =
      [("Content-Type", "text/html; charset=utf-8"),
        ("Content-Disposition",
          "attachment; filename=\"vayuveg-newsletter.html\"")] ∧
    ("Content-Disposition",
        "attachment; filename=\"vayuveg-weekly-newsletter.html\"") ∉
      (exportRoute rt0 c1Form).headers := by decide

/-- C4 (amended): whenever the article list is non-empty, the export response
carries exactly the Content-Type header and a Content-Disposition attachment
header with the fixed filename `vayuveg-newsletter.html`. -/
theorem export_disposition_attachment (rt : RenderTemplate) (form : Form)
    (h : parse_articles form ≠ []) :
    (exportRoute rt form).headers = [contentTypeHeader, exportDisposition] ∧
    exportDisposition =
      ("Content-Disposition",
        "attachment; filename=\"vayuveg-newsletter.html\"") := by
  have hne : (parse_articles form).isEmpty = false := by
    simp [List.isEmpty_iff, h]
  refine ⟨?_, rfl⟩
  simp [exportRoute, hne]

/-- Witness for C4's amended theorem at a concrete form and renderer. -/
theorem export_disposition_attachment_wit :
    (exportRoute rt0 c1Form).headers = [contentTypeHeader, exportDisposition] ∧
    exportDisposition =
      ("Content-Disposition",
        "attachment; filename=\"vayuveg-newsletter.html\"") :=
  export_disposition_attachment rt0 c1Form (by decide)

/-- C5: the rows `parse_articles` pairs run exactly to the longest of the
four resolved field lists (missing positions read as empty strings), the
output is the order-preserving image of the kept rows, and its length is at
most that maximum. -/
theorem parse_articles_pads_not_truncates (form : Form) :
    (zipRows form).length =
      max4 (getlistFallback form ["title"]).length
        (getlistFallback form ["summary", "desc"]).length
        (getlistFallback form ["image", "img"]).length
        (getlistFallback form ["url", "link"]).length ∧
    parse_articles form =
      ((zipRows form).filter (fun r => pyStrip r.1 ≠ "")).map mkRowArticle ∧
    (parse_articles form).length ≤
      max4 (getlistFallback form ["title"]).length
        (getlistFallback form ["summary", "desc"]).length
        (getlistFallback form ["image", "img"]).length
        (getlistFallback form ["url", "link"]).length := by
  have hlen : (zipRows form).length =
      max4 (getlistFallback form ["title"]).length
        (getlistFallback form ["summary", "desc"]).length
        (getlistFallback form ["image", "img"]).length
        (getlistFallback form ["url", "link"]).length := by
    simp [zipRows, zipLongest4]
  refine ⟨hlen, buildRows_eq _, ?_⟩
  rw [show parse_articles form =
      ((zipRows form).filter (fun r => pyStrip r.1 ≠ "")).map mkRowArticle
    from buildRows_eq (zipRows form)]
  rw [List.length_map]
  exact hlen ▸ List.length_filter_le _ _

/-- C7: every output article's title, image and url are the HTML-escape of the
trimmed raw row values, and `<script>` escapes to the literal
`&lt;script&gt;`. -/
theorem parse_articles_escapes_fields (form : Form) (a : Article)
    (h : a ∈ parse_articles form) :
    (∃ r ∈ zipRows form,
        a = mkRowArticle r ∧
        a.title = escape (pyStrip r.1) ∧
        a.image = escape (pyStrip r.2.2.1) ∧
        a.url = escape (pyStrip r.2.2.2)) ∧
    escape "<script>" = "&lt;script&gt;" := by
  refine ⟨?_, by decide⟩
  rcases mem_buildRows h with ⟨r, hmem, _, rfl⟩
  exact ⟨r, hmem, rfl, rfl, rfl, rfl⟩

/-- Witness for C7 at a form whose only title is `<script>`. -/
theorem parse_articles_escapes_fields_wit :
    (∃ r ∈ zipRows scriptForm,
        Article.mk "&lt;script&gt;" "" "" "" = mkRowArticle r ∧
        (Article.mk "&lt;script&gt;" "" "" "").title =
          escape (pyStrip r.1) ∧
        (Article.mk "&lt;script&gt;" "" "" "").image =
          escape (pyStrip r.2.2.1) ∧
        (Article.mk "&lt;script&gt;" "" "" "").url =
          escape (pyStrip r.2.2.2)) ∧
    escape "<script>" = "&lt;script&gt;" :=
  parse_articles_escapes_fields scriptForm
    (Article.mk "&lt;script&gt;" "" "" "") (by decide)

/-- C8: every output article's summary is the markdown rendering of the
trimmed raw summary, and the spec's example form yields exactly one article
with summary `<p><strong>world</strong></p>`. -/
theorem parse_articles_markdown_summary (form : Form) (a : Article)
    (h : a ∈ parse_articles form) :
    (∃ r ∈ zipRows form, a.summary = markdown (pyStrip r.2.1)) ∧
    parse_articles c8Form =
      [Article.mk "Hello" "<p><strong>world</strong></p>" "" ""] := by
  refine ⟨?_, by decide⟩
  rcases mem_buildRows h with ⟨r, hmem, _, rfl⟩
  exact ⟨r, hmem, rfl⟩

/-- Witness for C8 at the spec's markdown example form. -/
theorem parse_articles_markdown_summary_wit :
    (∃ r ∈ zipRows c8Form,
        (Article.mk "Hello" "<p><strong>world</strong></p>" "" "").summary =
          markdown (pyStrip r.2.1)) ∧
    parse_articles c8Form =
      [Article.mk "Hello" "<p><strong>world</strong></p>" "" ""] :=
  parse_articles_markdown_summary c8Form
    (Article.mk "Hello" "<p><strong>world</strong></p>" "" "") (by decide)
